import Mathlib

/-!
Verification development for the text-to-speech bot: a shallow embedding of
the preset-resolution chain, the audio worker queue, the caching engine
decorator, the session router index and the binary session persistence,
with theorems checking the specified properties against the embedded code.

Snowflake identifiers (64-bit) are modelled as natural numbers; Go maps are
modelled as association lists with Go map semantics (overwrite on insert,
zero value on missing lookup where the code reads a missing key).
-/

namespace Ttsbot

/-! ## Preset model (ttsbot/preset) -/

abbrev PresetID := String

/-- Mirror of preset.Preset: identifier, engine name, language code,
voice name and speaking rate. -/
structure Preset where
  identifier : PresetID
  engine : String
  language : String
  voiceName : String
  speakingRate : Rat
deriving DecidableEq, Repr

/-- Mirror of preset.PresetRegistry: a map from identifier to Preset,
modelled as an association list. -/
structure PresetRegistry where
  presets : List (PresetID × Preset)
deriving DecidableEq, Repr

def NewPresetRegistry : PresetRegistry := ⟨[]⟩

/-- Mirror of PresetRegistry.Get: map lookup returning the preset and a
found flag (here an Option). -/
def PresetRegistry.Get (r : PresetRegistry) (identifier : PresetID) : Option Preset :=
  (r.presets.find? (fun p => p.1 == identifier)).map (·.2)

/-- Mirror of PresetRegistry.Register: fails when the identifier is
already registered, otherwise stores the preset. -/
def PresetRegistry.Register (r : PresetRegistry) (preset : Preset) :
    Except String PresetRegistry :=
  if (r.Get preset.identifier).isSome then
    .error ("preset already registered: " ++ preset.identifier)
  else
    .ok ⟨r.presets ++ [(preset.identifier, preset)]⟩

/-- Mirror of preset.Scope (guild or user). -/
inductive Scope where
  | guild
  | user
deriving DecidableEq, Repr

/-- Outcome of PresetIDRepository.Find: a stored preset ID, the ErrNotFound
error, or any other (hard) error. -/
inductive FindResult where
  | found (presetID : PresetID)
  | notFound
  | failure
deriving DecidableEq, Repr

/-- A PresetIDRepository, abstracted to its Find behaviour: the stored
assignments (scope, ownerID) consulted by the resolver. -/
abbrev PresetIDRepository := Scope → Nat → FindResult

/-- Error outcomes of presetResolverImpl.resolveID: ErrNotFound, or a
non-NotFound repository error passed through. -/
inductive RepoErr where
  | notFound
  | failure
deriving DecidableEq, Repr

/-- Mirror of presetResolverImpl.resolveID: user scope first, then guild
scope; a non-NotFound error at either step is returned at once (the next
scope is not consulted); total exhaustion yields ErrNotFound. -/
def resolveID (repo : PresetIDRepository) (guildID userID : Nat) :
    Except RepoErr PresetID :=
  match repo Scope.user userID with
  | .found presetID => .ok presetID
  | .failure => .error .failure
  | .notFound =>
    match repo Scope.guild guildID with
    | .found presetID => .ok presetID
    | .failure => .error .failure
    | .notFound => .error .notFound

/-- Mirror of presetResolverImpl. -/
structure PresetResolverImpl where
  registry : PresetRegistry
  repository : PresetIDRepository
  fallbackPresetID : PresetID

/-- Mirror of NewPresetResolver: construction fails when the fallback
preset ID is not present in the registry. -/
def NewPresetResolver (registry : PresetRegistry) (repository : PresetIDRepository)
    (fallbackPresetID : PresetID) : Except String PresetResolverImpl :=
  if (registry.Get fallbackPresetID).isSome then
    .ok ⟨registry, repository, fallbackPresetID⟩
  else
    .error ("fallback preset ID " ++ fallbackPresetID ++ " not found in registry")

/-- Mirror of presetResolverImpl.Resolve: any resolveID error (NotFound or
hard) falls back to the configured fallback ID; a final registry miss is a
hard error. -/
def PresetResolverImpl.Resolve (r : PresetResolverImpl) (guildID userID : Nat) :
    Except String Preset :=
  let presetID :=
    match resolveID r.repository guildID userID with
    | .ok presetID => presetID
    | .error _ => r.fallbackPresetID
  match r.registry.Get presetID with
  | some preset => .ok preset
  | none => .error ("preset not found for ID " ++ presetID)

/-- Mirror of presetResolverImpl.ResolveGuildPreset: the same chain without
the user step. -/
def PresetResolverImpl.ResolveGuildPreset (r : PresetResolverImpl) (guildID : Nat) :
    Except String Preset :=
  let presetID :=
    match r.repository Scope.guild guildID with
    | .found presetID => presetID
    | _ => r.fallbackPresetID
  match r.registry.Get presetID with
  | some preset => .ok preset
  | none => .error ("preset not found for ID " ++ presetID)

/-! ### Concrete fixtures for the resolver (the registry of the spec
scenario: A is the fallback, B and C are alternatives) -/

def presetA : Preset := ⟨"A", "test_engine", "en", "voice-a", 1⟩

def presetB : Preset := ⟨"B", "test_engine", "en", "voice-b", 1⟩

def presetC : Preset := ⟨"C", "test_engine", "en", "voice-c", 1⟩

def regABC : PresetRegistry := ⟨[("A", presetA), ("B", presetB), ("C", presetC)]⟩

/-- Repository state after Save(user, u, "B") and Save(guild, g, "C"),
for user 10 and guild 20. -/
def repoUserBGuildC : PresetIDRepository := fun scope id =>
  match scope, id with
  | Scope.user, 10 => .found "B"
  | Scope.guild, 20 => .found "C"
  | _, _ => .notFound

/-- Repository state after only Save(guild, g, "C"), for guild 20. -/
def repoGuildC : PresetIDRepository := fun scope id =>
  match scope, id with
  | Scope.guild, 20 => .found "C"
  | _, _ => .notFound

/-- Repository with no stored assignments at all. -/
def repoEmpty : PresetIDRepository := fun _ _ => .notFound

/-- Repository whose user-scope lookup fails with a hard (non-NotFound)
error, as during a database outage. -/
def repoUserFailure : PresetIDRepository := fun scope _ =>
  match scope with
  | Scope.user => .failure
  | Scope.guild => .notFound

/-- Registry holding only the fallback preset A. -/
def regA : PresetRegistry := ⟨[("A", presetA)]⟩

/-- Repository storing the dangling preset ID X in user scope; X is not
registered in regA. -/
def repoDangling : PresetIDRepository := fun scope _ =>
  match scope with
  | Scope.user => .found "X"
  | Scope.guild => .notFound

/-! ### Resolver theorems -/

/-- Claim C1: Resolve looks up the stored preset ID first in user scope,
then in guild scope, and uses the configured fallback only when both
lookups miss; the first scope that yields a stored ID wins (the guild
scope is never consulted after a user-scope hit, captured by the statement
holding for every guild ID and every guild-scope behaviour). -/
theorem C1_resolve_precedence (r : PresetResolverImpl) (guildID userID : Nat) :
    (∀ presetID preset, r.repository Scope.user userID = .found presetID →
        r.registry.Get presetID = some preset →
        r.Resolve guildID userID = .ok preset) ∧
    (∀ presetID preset, r.repository Scope.user userID = .notFound →
        r.repository Scope.guild guildID = .found presetID →
        r.registry.Get presetID = some preset →
        r.Resolve guildID userID = .ok preset) ∧
    (∀ preset, r.repository Scope.user userID = .notFound →
        r.repository Scope.guild guildID = .notFound →
        r.registry.Get r.fallbackPresetID = some preset →
        r.Resolve guildID userID = .ok preset) := by
  refine ⟨?_, ?_, ?_⟩
  · intro presetID preset hUser hGet
    simp [PresetResolverImpl.Resolve, resolveID, hUser, hGet]
  · intro presetID preset hUser hGuild hGet
    simp [PresetResolverImpl.Resolve, resolveID, hUser, hGuild, hGet]
  · intro preset hUser hGuild hGet
    simp [PresetResolverImpl.Resolve, resolveID, hUser, hGuild, hGet]

/-- Witness for C1 at the spec scenario: with a user save of B and a guild
save of C, Resolve returns B; with only the guild save it returns C; with
neither it returns the fallback A. -/
theorem C1_resolve_precedence_witness :
    (PresetResolverImpl.mk regABC repoUserBGuildC "A").Resolve 20 10 = .ok presetB ∧
    (PresetResolverImpl.mk regABC repoGuildC "A").Resolve 20 10 = .ok presetC ∧
    (PresetResolverImpl.mk regABC repoEmpty "A").Resolve 20 10 = .ok presetA := by
  refine ⟨?_, ?_, ?_⟩
  · exact (C1_resolve_precedence (PresetResolverImpl.mk regABC repoUserBGuildC "A")
      20 10).1 "B" presetB rfl rfl
  · exact (C1_resolve_precedence (PresetResolverImpl.mk regABC repoGuildC "A")
      20 10).2.1 "C" presetC rfl rfl rfl
  · exact (C1_resolve_precedence (PresetResolverImpl.mk regABC repoEmpty "A")
      20 10).2.2 presetA rfl rfl rfl

/-- Claim C5 counterexample: with registry regA (fallback A registered) and
a stored user-scope preset ID X that names no registered preset, Resolve
returns a hard error, not the fallback preset with a nil error as the
claim states. -/
theorem C5_counterexample :
    (PresetResolverImpl.mk regA repoDangling "A").Resolve 20 10 =
      .error "preset not found for ID X" ∧
    (PresetResolverImpl.mk regA repoDangling "A").Resolve 20 10 ≠ .ok presetA := by
  constructor
  · rfl
  · intro h
    exact Except.noConfusion h

/-- Claim C5 (amended): a stored preset ID that names no registered preset
yields a hard error from Resolve (and likewise from ResolveGuildPreset);
the fallback is used only when the lookup chain itself produces no stored
ID (miss or repository error), never for a dangling stored reference. -/
theorem C5_dangling_reference_errors (r : PresetResolverImpl)
    (guildID userID : Nat) (presetID : PresetID)
    (hmiss : r.registry.Get presetID = none) :
    (resolveID r.repository guildID userID = .ok presetID →
      r.Resolve guildID userID = .error ("preset not found for ID " ++ presetID)) ∧
    (r.repository Scope.guild guildID = .found presetID →
      r.ResolveGuildPreset guildID = .error ("preset not found for ID " ++ presetID)) := by
  constructor
  · intro hid
    simp [PresetResolverImpl.Resolve, hid, hmiss]
  · intro hGuild
    simp [PresetResolverImpl.ResolveGuildPreset, hGuild, hmiss]

/-- Witness for the amended C5 at the dangling-reference fixture. -/
theorem C5_dangling_reference_errors_witness :
    (PresetResolverImpl.mk regA repoDangling "A").Resolve 20 10 =
      .error ("preset not found for ID " ++ "X") ∧
    (PresetResolverImpl.mk regA (fun _ _ => .found "X") "A").ResolveGuildPreset 20 =
      .error ("preset not found for ID " ++ "X") := by
  constructor
  · exact (C5_dangling_reference_errors (PresetResolverImpl.mk regA repoDangling "A")
      20 10 "X" rfl).1 rfl
  · exact (C5_dangling_reference_errors
      (PresetResolverImpl.mk regA (fun _ _ => .found "X") "A") 20 10 "X" rfl).2 rfl

/-- Claim C10: any repository failure (hard error, not only NotFound) at
either consulted scope makes Resolve return the configured fallback preset
with no error, exactly as an ordinary lookup miss does — repository
failures are never propagated to the caller. -/
theorem C10_repo_failure_falls_back (r : PresetResolverImpl)
    (guildID userID : Nat) (preset : Preset)
    (hfb : r.registry.Get r.fallbackPresetID = some preset) :
    (r.repository Scope.user userID = .failure →
      r.Resolve guildID userID = .ok preset) ∧
    (r.repository Scope.user userID = .notFound →
      r.repository Scope.guild guildID = .failure →
      r.Resolve guildID userID = .ok preset) ∧
    (r.repository Scope.user userID = .notFound →
      r.repository Scope.guild guildID = .notFound →
      r.Resolve guildID userID = .ok preset) := by
  refine ⟨?_, ?_, ?_⟩
  · intro hUser
    simp [PresetResolverImpl.Resolve, resolveID, hUser, hfb]
  · intro hUser hGuild
    simp [PresetResolverImpl.Resolve, resolveID, hUser, hGuild, hfb]
  · intro hUser hGuild
    simp [PresetResolverImpl.Resolve, resolveID, hUser, hGuild, hfb]

/-- Witness for C10: a user-scope hard failure resolves to the fallback
preset A with no error, indistinguishable from the all-miss outcome. -/
theorem C10_repo_failure_falls_back_witness :
    (PresetResolverImpl.mk regABC repoUserFailure "A").Resolve 20 10 = .ok presetA ∧
    (PresetResolverImpl.mk regABC repoEmpty "A").Resolve 20 10 = .ok presetA := by
  constructor
  · exact (C10_repo_failure_falls_back
      (PresetResolverImpl.mk regABC repoUserFailure "A") 20 10 presetA rfl).1 rfl
  · exact (C10_repo_failure_falls_back
      (PresetResolverImpl.mk regABC repoEmpty "A") 20 10 presetA rfl).2.2 rfl rfl

/-! ## TTS engine model (ttsbot/tts/engine.go) -/

/-- Mirror of tts.SpeechRequest. -/
structure SpeechRequest where
  text : String
  languageCode : String
  voiceName : String
  speakingRate : Rat
deriving DecidableEq, Repr

/-- Mirror of tts.SpeechResponse: format tag, channel count, raw bytes. -/
structure SpeechResponse where
  format : Nat
  channels : Nat
  audioContent : List Nat
deriving DecidableEq, Repr

/-- Mirror of tts.Engine, abstracted to its deterministic behaviour: a name
and a synthesis function that may fail. -/
structure Engine where
  name : String
  generate : SpeechRequest → Except String SpeechResponse

/-- Mirror of tts.EngineRegistry. -/
structure EngineRegistry where
  engines : List (String × Engine)

/-- Mirror of EngineRegistry.Get. -/
def EngineRegistry.Get (r : EngineRegistry) (identifier : String) : Option Engine :=
  (r.engines.find? (fun p => p.1 == identifier)).map (·.2)

/-! ## Audio worker model (ttsbot/audio/worker.go) -/

/-- Mirror of audio.SpeechTask (the session.SpeechTask variant carries the
same fields under the names ContainsSpeaker, SpeakerName, SpeakerID). -/
structure SpeechTask where
  preset : Preset
  segments : List String
  containsName : Bool
  speaker : Nat
  speakerName : String
deriving DecidableEq, Repr

/-- Errors surfaced by EnqueueTask. -/
inductive EnqueueError where
  | stopped
  | saturated
deriving DecidableEq, Repr

/-- State of audioWorkerImpl: the bounded task queue (a buffered channel of
the given capacity), the closed-or-not stop channel, and the track player
capacity fixed at three times the queue size by NewAudioWorker. -/
structure AudioWorker where
  capacity : Nat
  trackCapacity : Nat
  taskQueue : List SpeechTask
  stopped : Bool
deriving DecidableEq, Repr

/-- Mirror of NewAudioWorker: empty queue of the given capacity, running,
with the track player sized at queueSize * 3. -/
def NewAudioWorker (queueSize : Nat) : AudioWorker :=
  { capacity := queueSize, trackCapacity := queueSize * 3
    taskQueue := [], stopped := false }

/-- Mirror of audioWorkerImpl.EnqueueTask: if stopped, fail with the
stopped error; otherwise a non-blocking channel send — append when the
buffer has room, fail with the saturated error when it is full. The
returned worker is the post-call state. -/
def EnqueueTask (w : AudioWorker) (task : SpeechTask) :
    AudioWorker × Option EnqueueError :=
  if w.stopped then
    (w, some .stopped)
  else if w.taskQueue.length < w.capacity then
    ({ w with taskQueue := w.taskQueue ++ [task] }, none)
  else
    (w, some .saturated)

/-- Sequenced EnqueueTask calls, returning the final worker state and the
per-call results in order. -/
def enqueueAll (w : AudioWorker) : List SpeechTask → AudioWorker × List (Option EnqueueError)
  | [] => (w, [])
  | t :: ts =>
    let step := EnqueueTask w t
    let rest := enqueueAll step.1 ts
    (rest.1, step.2 :: rest.2)

/-- Mirror of the speaker-name handling in audioWorkerImpl.workerLoop: when
the dequeued task carries a speaker differing from lastSpeakerID, the
speaker name is prepended as a segment and lastSpeakerID is updated. -/
def applySpeaker (lastSpeakerID : Nat) (task : SpeechTask) : SpeechTask × Nat :=
  if task.containsName = true ∧ task.speaker ≠ lastSpeakerID then
    ({ task with segments := task.speakerName :: task.segments }, task.speaker)
  else
    (task, lastSpeakerID)

/-- The worker loop dequeuing a queue to exhaustion: each list entry pairs
the task as dequeued with the task as actually processed (after the
speaker-name transformation), in dequeue order. -/
def workerLoopRun (lastSpeakerID : Nat) : List SpeechTask → List (SpeechTask × SpeechTask)
  | [] => []
  | t :: ts =>
    let step := applySpeaker lastSpeakerID t
    (t, step.1) :: workerLoopRun step.2 ts

/-- The SpeechRequest built by audioWorkerImpl.processTask for a segment. -/
def mkRequest (preset : Preset) (segment : String) : SpeechRequest :=
  { text := segment, languageCode := preset.language
    voiceName := preset.voiceName, speakingRate := preset.speakingRate }

/-- Segment loop of audioWorkerImpl.processTask: synthesize each segment in
order, providing each response to the track player (accumulated in
`provided`); a synthesis failure returns the error immediately, leaving the
remaining segments unprocessed. -/
def processSegments (engine : Engine) (preset : Preset) :
    List String → List SpeechResponse → List SpeechResponse × Except String Unit
  | [], provided => (provided, .ok ())
  | segment :: rest, provided =>
    match engine.generate (mkRequest preset segment) with
    | .error e =>
      (provided, .error ("failed to generate speech for segment " ++ segment ++ ": " ++ e))
    | .ok audioContent => processSegments engine preset rest (provided ++ [audioContent])

/-- Mirror of audioWorkerImpl.processTask: look up the engine, then run the
segment loop; returns the responses provided to the track player and the
overall result. -/
def processTask (registry : EngineRegistry) (task : SpeechTask) :
    List SpeechResponse × Except String Unit :=
  match registry.Get task.preset.engine with
  | none => ([], .error ("failed to get TTS engine " ++ task.preset.engine))
  | some engine => processSegments engine task.preset task.segments []

/-- Mirror of Session.performTextToSpeech (historical session variant):
engine lookup plus a single synthesis call. -/
def performTextToSpeech (registry : EngineRegistry) (segment : String)
    (preset : Preset) : Except String SpeechResponse :=
  match registry.Get preset.engine with
  | none => .error ("TTS engine " ++ preset.engine ++ " not found")
  | some engine =>
    match engine.generate (mkRequest preset segment) with
    | .error e => .error ("failed to synthesize speech: " ++ e)
    | .ok resp => .ok resp

/-- Mirror of Session.processTask (historical session variant): empty
segments are skipped, a failing segment is logged and skipped, and the
remaining segments are still processed; returns the responses pushed onto
the audio queue in order. -/
def sessionProcessTask (registry : EngineRegistry) (task : SpeechTask) :
    List SpeechResponse :=
  task.segments.foldl (fun acc segment =>
    if segment = "" then acc
    else
      match performTextToSpeech registry segment task.preset with
      | .error _ => acc
      | .ok resp => acc ++ [resp]) []

/-! ### Worker fixtures and helper lemmas -/

def task1 : SpeechTask := ⟨presetA, ["one"], false, 0, ""⟩

def task2 : SpeechTask := ⟨presetA, ["two"], false, 0, ""⟩

def task3 : SpeechTask := ⟨presetA, ["three"], false, 0, ""⟩

/-- Engine that fails exactly on the text "bad" and otherwise produces a
fixed mp3 response. -/
def flakyEngine : Engine where
  name := "test_engine"
  generate := fun req => if req.text = "bad" then .error "boom" else .ok ⟨1, 1, [42]⟩

def regFlaky : EngineRegistry := ⟨[("test_engine", flakyEngine)]⟩

def badGoodTask : SpeechTask := ⟨presetA, ["bad", "good"], false, 0, ""⟩

/-- A running worker whose queue holds room accepts a whole batch, appending
it in order and reporting no error for any element. -/
theorem enqueueAll_accepts (tasks : List SpeechTask) :
    ∀ w : AudioWorker, w.stopped = false →
      w.taskQueue.length + tasks.length ≤ w.capacity →
      enqueueAll w tasks =
        ({ w with taskQueue := w.taskQueue ++ tasks }, tasks.map fun _ => none) := by
  induction tasks with
  | nil => intro w hstop _; simp [enqueueAll]
  | cons t ts ih =>
    intro w hstop hlen
    have hroom : w.taskQueue.length < w.capacity := by
      simp at hlen; omega
    have hstep : EnqueueTask w t = ({ w with taskQueue := w.taskQueue ++ [t] }, none) := by
      simp [EnqueueTask, hstop, hroom]
    have hrest := ih { w with taskQueue := w.taskQueue ++ [t] } hstop
      (by simp at hlen ⊢; omega)
    simp [enqueueAll, hstep, hrest]

/-- The worker loop dequeues exactly the queue contents in queue order. -/
theorem workerLoopRun_fst (lastSpeakerID : Nat) (tasks : List SpeechTask) :
    (workerLoopRun lastSpeakerID tasks).map Prod.fst = tasks := by
  induction tasks generalizing lastSpeakerID with
  | nil => rfl
  | cons t ts ih => simp [workerLoopRun, ih]

/-- Segment loop behaviour when an all-successful prefix is followed by a
failing segment: exactly the prefix is provided, then the error aborts. -/
theorem processSegments_fail_after (engine : Engine) (preset : Preset)
    (respOf : String → SpeechResponse) (segment : String) (e : String)
    (post : List String)
    (hfail : engine.generate (mkRequest preset segment) = .error e) :
    ∀ (pre : List String) (provided : List SpeechResponse),
      (∀ s ∈ pre, engine.generate (mkRequest preset s) = .ok (respOf s)) →
      processSegments engine preset (pre ++ segment :: post) provided =
        (provided ++ pre.map respOf,
          .error ("failed to generate speech for segment " ++ segment ++ ": " ++ e)) := by
  intro pre
  induction pre with
  | nil => intro provided _; simp [processSegments, hfail]
  | cons s rest ih =>
    intro provided hpre
    have hs : engine.generate (mkRequest preset s) = .ok (respOf s) :=
      hpre s (by simp)
    have hrest := ih (provided ++ [respOf s]) (fun x hx => hpre x (by simp [hx]))
    simp [processSegments, hs, hrest]

/-- The session-variant segment loop is a filterMap: each segment is kept or
dropped independently of the fate of the other segments. -/
theorem sessionProcessTask_filterMap (registry : EngineRegistry) (task : SpeechTask) :
    sessionProcessTask registry task =
      task.segments.filterMap (fun segment =>
        if segment = "" then none
        else (performTextToSpeech registry segment task.preset).toOption) := by
  unfold sessionProcessTask
  generalize task.segments = segs
  suffices h : ∀ (acc : List SpeechResponse),
      segs.foldl (fun acc segment =>
        if segment = "" then acc
        else
          match performTextToSpeech registry segment task.preset with
          | .error _ => acc
          | .ok resp => acc ++ [resp]) acc =
      acc ++ segs.filterMap (fun segment =>
        if segment = "" then none
        else (performTextToSpeech registry segment task.preset).toOption) by
    simpa using h []
  induction segs with
  | nil => intro acc; simp
  | cons s rest ih =>
    intro acc
    by_cases hs : s = ""
    · simp [hs, ih]
    · rcases hres : performTextToSpeech registry s task.preset with e | resp
      · simp [hs, hres, ih, Except.toOption]
      · simp [hs, hres, ih, Except.toOption]

/-! ### Worker theorems -/

/-- Claim C2: EnqueueTask never blocks — on a stopped worker it returns the
stopped error with the worker untouched; on a full queue it returns the
saturated error and drops the task; otherwise it appends the task and
reports no error. -/
theorem C2_enqueue_nonblocking (w : AudioWorker) (task : SpeechTask) :
    (w.stopped = true → EnqueueTask w task = (w, some .stopped)) ∧
    (w.stopped = false → w.capacity ≤ w.taskQueue.length →
      EnqueueTask w task = (w, some .saturated)) ∧
    (w.stopped = false → w.taskQueue.length < w.capacity →
      EnqueueTask w task = ({ w with taskQueue := w.taskQueue ++ [task] }, none)) := by
  refine ⟨?_, ?_, ?_⟩
  · intro hstop; simp [EnqueueTask, hstop]
  · intro hstop hfull
    simp [EnqueueTask, hstop, Nat.not_lt.mpr hfull]
  · intro hstop hroom; simp [EnqueueTask, hstop, hroom]

/-- Witness for C2: a stopped worker rejects with the stopped error, a full
running worker rejects with the saturated error, and a running worker with
room accepts. -/
theorem C2_enqueue_nonblocking_witness :
    EnqueueTask ⟨2, 6, [], true⟩ task1 = (⟨2, 6, [], true⟩, some .stopped) ∧
    EnqueueTask ⟨1, 3, [task2], false⟩ task1 = (⟨1, 3, [task2], false⟩, some .saturated) ∧
    EnqueueTask ⟨2, 6, [task2], false⟩ task1 = (⟨2, 6, [task2, task1], false⟩, none) := by
  refine ⟨?_, ?_, ?_⟩
  · exact (C2_enqueue_nonblocking ⟨2, 6, [], true⟩ task1).1 rfl
  · exact (C2_enqueue_nonblocking ⟨1, 3, [task2], false⟩ task1).2.1 rfl (by decide)
  · exact (C2_enqueue_nonblocking ⟨2, 6, [task2], false⟩ task1).2.2 rfl (by decide)

/-- Claim C7: tasks enqueued without exceeding the queue capacity are all
accepted and processed by the worker loop in exactly enqueue order; and in
the capacity-2 scenario with three back-to-back enqueues, the first two are
accepted, the third saturates, and the two accepted tasks are dequeued in
their original order. -/
theorem C7_fifo_order (tasks : List SpeechTask) (queueSize : Nat)
    (h : tasks.length ≤ queueSize) :
    ((enqueueAll (NewAudioWorker queueSize) tasks).2 = tasks.map fun _ => none) ∧
    ((workerLoopRun 0 (enqueueAll (NewAudioWorker queueSize) tasks).1.taskQueue).map
        Prod.fst = tasks) ∧
    ((enqueueAll (NewAudioWorker 2) [task1, task2, task3]).2 =
      [none, none, some .saturated]) ∧
    ((enqueueAll (NewAudioWorker 2) [task1, task2, task3]).1.taskQueue =
      [task1, task2]) ∧
    ((workerLoopRun 0 (enqueueAll (NewAudioWorker 2)
        [task1, task2, task3]).1.taskQueue).map Prod.fst = [task1, task2]) := by
  have hall := enqueueAll_accepts tasks (NewAudioWorker queueSize) rfl
    (by simpa [NewAudioWorker] using h)
  refine ⟨by simp [hall], ?_, by decide, by decide, by decide⟩
  rw [hall]
  simpa [NewAudioWorker] using workerLoopRun_fst 0 tasks

/-- Witness for C7 with three distinct tasks and capacity 3: all accepted
in order and dequeued in order. -/
theorem C7_fifo_order_witness :
    ((enqueueAll (NewAudioWorker 3) [task1, task2, task3]).2 = [none, none, none]) ∧
    ((workerLoopRun 0 (enqueueAll (NewAudioWorker 3)
        [task1, task2, task3]).1.taskQueue).map Prod.fst = [task1, task2, task3]) :=
  ⟨(C7_fifo_order [task1, task2, task3] 3 (by decide)).1,
   (C7_fifo_order [task1, task2, task3] 3 (by decide)).2.1⟩

/-- Claim C4 counterexample: under audioWorkerImpl.processTask, a task with
segments ["bad", "good"] where only "bad" fails provides nothing to the
track player and aborts with an error — the remaining segment "good",
which the engine would synthesize successfully, is never synthesized or
enqueued, contrary to the claim. -/
theorem C4_counterexample :
    flakyEngine.generate (mkRequest presetA "good") = .ok ⟨1, 1, [42]⟩ ∧
    (processTask regFlaky badGoodTask).1 = [] ∧
    (processTask regFlaky badGoodTask).2 =
      .error "failed to generate speech for segment bad: boom" :=
  ⟨rfl, rfl, rfl⟩

/-- Claim C4 (amended): in audioWorkerImpl.processTask a synthesis failure
aborts the task — the successfully synthesized prefix before the failing
segment is provided for playback, the failing segment and all later
segments are dropped, and the task returns an error (the worker loop merely
logs it and moves on to later tasks). Only the historical Session
variant (Session.processTask) skips just the failing segment and continues
with the rest, each segment being kept or dropped independently. -/
theorem C4_segment_failure (registry : EngineRegistry) (task : SpeechTask)
    (engine : Engine) (respOf : String → SpeechResponse)
    (pre : List String) (segment : String) (post : List String) (e : String)
    (hengine : registry.Get task.preset.engine = some engine)
    (hsegs : task.segments = pre ++ segment :: post)
    (hpre : ∀ s ∈ pre, engine.generate (mkRequest task.preset s) = .ok (respOf s))
    (hfail : engine.generate (mkRequest task.preset segment) = .error e) :
    processTask registry task =
      (pre.map respOf,
        .error ("failed to generate speech for segment " ++ segment ++ ": " ++ e)) ∧
    sessionProcessTask registry task =
      task.segments.filterMap (fun s =>
        if s = "" then none
        else (performTextToSpeech registry s task.preset).toOption) := by
  constructor
  · rw [processTask, hengine, hsegs]
    simpa using processSegments_fail_after engine task.preset respOf segment e post
      hfail pre [] hpre
  · exact sessionProcessTask_filterMap registry task

/-- Witness for the amended C4: with segments ["good", "bad", "tail"] the
worker provides exactly the response for "good" and aborts, while the
session variant still synthesizes "tail" after skipping "bad". -/
theorem C4_segment_failure_witness :
    processTask regFlaky ⟨presetA, ["good", "bad", "tail"], false, 0, ""⟩ =
      ([⟨1, 1, [42]⟩],
        .error ("failed to generate speech for segment " ++ "bad" ++ ": " ++ "boom")) ∧
    sessionProcessTask regFlaky ⟨presetA, ["good", "bad", "tail"], false, 0, ""⟩ =
      [⟨1, 1, [42]⟩, ⟨1, 1, [42]⟩] := by
  have h := C4_segment_failure regFlaky ⟨presetA, ["good", "bad", "tail"], false, 0, ""⟩
    flakyEngine (fun _ => ⟨1, 1, [42]⟩) ["good"] "bad" ["tail"] "boom"
    rfl rfl
    (by intro s hs; rcases List.mem_singleton.mp hs with rfl; rfl)
    rfl
  exact ⟨h.1, by rw [h.2]; rfl⟩

/-! ## Big-endian 64-bit encoding (encoding/binary, shared by the hash sum
and the persisted session record) -/

/-- Mirror of binary.BigEndian.PutUint64: the eight big-endian bytes of a
64-bit value. -/
def putUint64BE (n : Nat) : List Nat :=
  [n / 2 ^ 56 % 256, n / 2 ^ 48 % 256, n / 2 ^ 40 % 256, n / 2 ^ 32 % 256,
   n / 2 ^ 24 % 256, n / 2 ^ 16 % 256, n / 2 ^ 8 % 256, n % 256]

/-- Mirror of binary.BigEndian.Uint64: reading bytes most-significant
first. -/
def beUint64 (bytes : List Nat) : Nat :=
  bytes.foldl (fun acc b => acc * 256 + b) 0

/-! ## Cached engine decorator model (tts cached engine) -/

/-- UTF-8 bytes of a string, as written to the hash by generateKey. -/
def strBytes (s : String) : List Nat :=
  s.toUTF8.toList.map (·.toNat)

/-- Mirror of hash/fnv New64a followed by Write over the given bytes:
the FNV-1a 64-bit state (offset basis 14695981039346656037, prime
1099511628211, arithmetic modulo 2^64). -/
def fnv1a64 (bytes : List Nat) : Nat :=
  bytes.foldl (fun h b => ((h ^^^ b) * 1099511628211) % 2 ^ 64) 14695981039346656037

/-- Lowercase hexadecimal digit. -/
def hexDigit (n : Nat) : Char :=
  if n < 10 then Char.ofNat (48 + n) else Char.ofNat (87 + n)

/-- Mirror of hex.EncodeToString over a byte list. -/
def hexEncode (bytes : List Nat) : String :=
  String.mk (bytes.foldr (fun b acc => hexDigit (b / 16) :: hexDigit (b % 16) :: acc) [])

/-- The Engine interface the cached decorator wraps (the []byte-returning
variant): a name and a synthesis function yielding raw audio bytes. -/
structure ByteEngine where
  name : String
  generate : SpeechRequest → Except String (List Nat)

/-- One stored cache item: value bytes and the TTL it was written with
(time.Duration modelled as Int). -/
structure CacheItem where
  value : List Nat
  ttl : Int
deriving DecidableEq, Repr

/-- The redis cache contents, key to item. -/
abbrev RedisCache := List (String × CacheItem)

/-- Cache read (redisCache.Get): the stored bytes on a key hit. -/
def cacheGet (c : RedisCache) (key : String) : Option (List Nat) :=
  (c.find? (fun p => p.1 == key)).map (·.2.value)

/-- Cache write (redisCache.Set of a cache.Item with the given TTL):
overwrites any previous entry for the key. -/
def cacheSet (c : RedisCache) (key : String) (value : List Nat) (ttl : Int) :
    RedisCache :=
  (c.filter (fun p => p.1 != key)) ++ [(key, ⟨value, ttl⟩)]

/-- Mirror of CachedTTSEngine: the wrapped engine and the ttl field. -/
structure CachedTTSEngine where
  nextEngine : ByteEngine
  ttl : Int

/-- Mirror of NewCachedTTSEngine. The Go constructor builds the struct with
a composite literal that sets nextEngine, redisCache and hash but never
assigns the ttl parameter, so the ttl field keeps its zero value. -/
def NewCachedTTSEngine (nextEngine : ByteEngine) (ttl : Int) : CachedTTSEngine :=
  { nextEngine := nextEngine, ttl := 0 }

/-- Mirror of CachedTTSEngine.Name. -/
def CachedTTSEngine.Name (c : CachedTTSEngine) : String :=
  c.nextEngine.name ++ "-cached"

/-- Mirror of CachedTTSEngine.generateKey: hex-encoded FNV-1a sum of the
wrapped engine name, language code, voice name and raw text, written in
that order (the speaking rate is not part of the key). -/
def CachedTTSEngine.generateKey (c : CachedTTSEngine) (request : SpeechRequest) :
    String :=
  hexEncode (putUint64BE (fnv1a64
    (strBytes c.nextEngine.name ++ strBytes request.languageCode ++
     strBytes request.voiceName ++ strBytes request.text)))

/-- Mirror of CachedTTSEngine.GenerateSpeech as a state transition on the
cache: on a key hit return the cached bytes without calling the wrapped
engine; on a miss call the wrapped engine and, on success, store the
result under the key with TTL c.ttl (the detached store is modelled as
having completed). The third component counts wrapped-engine
invocations. -/
def CachedTTSEngine.GenerateSpeech (c : CachedTTSEngine) (cache : RedisCache)
    (request : SpeechRequest) : Except String (List Nat) × RedisCache × Nat :=
  let key := c.generateKey request
  match cacheGet cache key with
  | some audioData => (.ok audioData, cache, 0)
  | none =>
    match c.nextEngine.generate request with
    | .error e => (.error e, cache, 1)
    | .ok audioData => (.ok audioData, cacheSet cache key audioData c.ttl, 1)

/-- A freshly written key reads back its value. -/
theorem cacheGet_cacheSet_same (c : RedisCache) (key : String) (value : List Nat)
    (ttl : Int) : cacheGet (cacheSet c key value ttl) key = some value := by
  unfold cacheGet cacheSet
  induction c with
  | nil => simp
  | cons p rest ih =>
    by_cases hp : p.1 = key
    · simpa [hp] using ih
    · simpa [List.find?, hp] using ih

/-! ### Cached engine fixtures -/

def byteEngineG : ByteEngine := ⟨"g", fun _ => .ok [7]⟩

def cachedG : CachedTTSEngine := NewCachedTTSEngine byteEngineG 300000000000

def reqFix : SpeechRequest := ⟨"hello", "en-US", "voice-x", 1⟩

/-! ### Cached engine theorems -/

/-- Claim C3: the cache key is a function of exactly the wrapped-engine
name, text, language code and voice name (the speaking rate does not enter
it); on a key hit the cached bytes are returned with no wrapped-engine
call; and over two consecutive calls with the same tuple, when the first
call succeeds the wrapped engine runs at most once in total and both calls
return byte-identical audio. -/
theorem C3_cache_idempotence (c : CachedTTSEngine) (cache : RedisCache)
    (request : SpeechRequest) :
    (∀ request2 : SpeechRequest, request2.text = request.text →
      request2.languageCode = request.languageCode →
      request2.voiceName = request.voiceName →
      c.generateKey request2 = c.generateKey request) ∧
    (∀ audioData, cacheGet cache (c.generateKey request) = some audioData →
      c.GenerateSpeech cache request = (.ok audioData, cache, 0)) ∧
    (∀ audioData,
      (c.GenerateSpeech cache request).1 = .ok audioData →
      (c.GenerateSpeech cache request).2.2 +
        (c.GenerateSpeech (c.GenerateSpeech cache request).2.1 request).2.2 ≤ 1 ∧
      (c.GenerateSpeech (c.GenerateSpeech cache request).2.1 request).1 =
        .ok audioData) := by
  refine ⟨?_, ?_, ?_⟩
  · intro request2 h1 h2 h3
    simp [CachedTTSEngine.generateKey, h1, h2, h3]
  · intro audioData hhit
    simp [CachedTTSEngine.GenerateSpeech, hhit]
  · intro audioData hok
    rcases hget : cacheGet cache (c.generateKey request) with _ | cachedData
    · rcases hgen : c.nextEngine.generate request with e | fresh
      · exfalso
        simp [CachedTTSEngine.GenerateSpeech, hget, hgen] at hok
      · have hfirst : c.GenerateSpeech cache request =
            (.ok fresh, cacheSet cache (c.generateKey request) fresh c.ttl, 1) := by
          simp [CachedTTSEngine.GenerateSpeech, hget, hgen]
        have hval : fresh = audioData := by
          rw [hfirst] at hok
          exact Except.ok.inj hok
        subst hval
        have hsecond : c.GenerateSpeech
            (cacheSet cache (c.generateKey request) fresh c.ttl) request =
            (.ok fresh, cacheSet cache (c.generateKey request) fresh c.ttl, 0) := by
          simp [CachedTTSEngine.GenerateSpeech, cacheGet_cacheSet_same]
        rw [hfirst]
        simp [hsecond]
    · have hfirst : c.GenerateSpeech cache request = (.ok cachedData, cache, 0) := by
        simp [CachedTTSEngine.GenerateSpeech, hget]
      have hval : cachedData = audioData := by
        rw [hfirst] at hok
        exact Except.ok.inj hok
      subst hval
      rw [hfirst]
      simp [CachedTTSEngine.GenerateSpeech, hget]

/-- Witness for C3: with a concrete wrapped engine and an empty cache, the
first call invokes the engine once, the second call is a pure hit, and
both return the same bytes. -/
theorem C3_cache_idempotence_witness :
    (cachedG.GenerateSpeech [] reqFix).2.2 +
      (cachedG.GenerateSpeech (cachedG.GenerateSpeech [] reqFix).2.1 reqFix).2.2 ≤ 1 ∧
    (cachedG.GenerateSpeech (cachedG.GenerateSpeech [] reqFix).2.1 reqFix).1 =
      .ok [7] :=
  (C3_cache_idempotence cachedG [] reqFix).2.2 [7] rfl

/-- Claim C6: the constructor drops the configured TTL. On a miss the
wrapped engine is called synchronously and its bytes are returned to the
caller, and the store does run — but the item is written with TTL 0 (the
zero value of the never-assigned ttl field), not with the ttl value passed
to NewCachedTTSEngine (here 300000000000, five minutes). -/
theorem C6_ttl_not_configured :
    (NewCachedTTSEngine byteEngineG 300000000000).ttl = 0 ∧
    cachedG.GenerateSpeech [] reqFix =
      (.ok [7], [(cachedG.generateKey reqFix, ⟨[7], 0⟩)], 1) ∧
    ((cachedG.GenerateSpeech [] reqFix).2.1.map fun item => item.2.ttl) = [0] ∧
    (0 : Int) ≠ 300000000000 :=
  ⟨rfl, rfl, rfl, by decide⟩

/-! ## Persisted session record model (ttsbot/session/persistence.go and the
namespace-embedding variant) -/

/-- Mirror of persistentSession (three-field variant): guild, voice-channel
and reading-channel identifiers. -/
structure persistentSession where
  guildID : Nat
  voiceChannelID : Nat
  readingChannelID : Nat
deriving DecidableEq, Repr

/-- Mirror of persistentSession.MarshalBinary: 8+8+8 bytes, big-endian, in
field order guild, voice channel, reading channel. -/
def persistentSession.MarshalBinary (s : persistentSession) : List Nat :=
  putUint64BE s.guildID ++ putUint64BE s.voiceChannelID ++
    putUint64BE s.readingChannelID

/-- Mirror of persistentSession.UnmarshalBinary: rejects any length other
than 24 bytes, otherwise reads the three big-endian identifiers. -/
def persistentSession.UnmarshalBinary (data : List Nat) :
    Except String persistentSession :=
  if data.length ≠ 24 then
    .error ("invalid data length: expected 24 bytes, got " ++ toString data.length)
  else
    .ok ⟨beUint64 (data.take 8), beUint64 ((data.drop 8).take 8),
      beUint64 ((data.drop 16).take 8)⟩

/-- Mirror of the four-field persistentSession variant that embeds the
namespace (application) identifier ahead of the other three. -/
structure persistentSessionApp where
  applicationID : Nat
  guildID : Nat
  voiceChannelID : Nat
  readingChannelID : Nat
deriving DecidableEq, Repr

/-- Mirror of MarshalBinary for the four-field variant: 8+8+8+8 bytes,
big-endian, application identifier first. -/
def persistentSessionApp.MarshalBinary (s : persistentSessionApp) : List Nat :=
  putUint64BE s.applicationID ++ putUint64BE s.guildID ++
    putUint64BE s.voiceChannelID ++ putUint64BE s.readingChannelID

/-- Mirror of UnmarshalBinary for the four-field variant: rejects any
length other than 32 bytes. -/
def persistentSessionApp.UnmarshalBinary (data : List Nat) :
    Except String persistentSessionApp :=
  if data.length ≠ 32 then
    .error ("invalid data length: expected 32 bytes, got " ++ toString data.length)
  else
    .ok ⟨beUint64 (data.take 8), beUint64 ((data.drop 8).take 8),
      beUint64 ((data.drop 16).take 8), beUint64 ((data.drop 24).take 8)⟩

/-- Reading back the eight big-endian bytes of a 64-bit value restores
it. -/
theorem beUint64_putUint64BE (n : Nat) (h : n < 2 ^ 64) :
    beUint64 (putUint64BE n) = n := by
  simp [beUint64, putUint64BE, List.foldl]
  omega

set_option maxHeartbeats 1600000 in
/-- Claim C9: the three-field record marshals to exactly 24 bytes holding
guild, voice-channel and reading-channel identifiers big-endian in that
order and unmarshals back to an equal record, any other input length being
rejected; the four-field variant does the same in 32 bytes with the
application (namespace) identifier embedded first. -/
theorem C9_marshal_roundtrip (s : persistentSession) (t : persistentSessionApp)
    (h1 : s.guildID < 2 ^ 64) (h2 : s.voiceChannelID < 2 ^ 64)
    (h3 : s.readingChannelID < 2 ^ 64)
    (h4 : t.applicationID < 2 ^ 64) (h5 : t.guildID < 2 ^ 64)
    (h6 : t.voiceChannelID < 2 ^ 64) (h7 : t.readingChannelID < 2 ^ 64) :
    s.MarshalBinary.length = 24 ∧
    s.MarshalBinary = putUint64BE s.guildID ++ putUint64BE s.voiceChannelID ++
      putUint64BE s.readingChannelID ∧
    persistentSession.UnmarshalBinary s.MarshalBinary = .ok s ∧
    (∀ data : List Nat, data.length ≠ 24 →
      ∃ e, persistentSession.UnmarshalBinary data = .error e) ∧
    t.MarshalBinary.length = 32 ∧
    t.MarshalBinary = putUint64BE t.applicationID ++ putUint64BE t.guildID ++
      putUint64BE t.voiceChannelID ++ putUint64BE t.readingChannelID ∧
    persistentSessionApp.UnmarshalBinary t.MarshalBinary = .ok t ∧
    (∀ data : List Nat, data.length ≠ 32 →
      ∃ e, persistentSessionApp.UnmarshalBinary data = .error e) := by
  refine ⟨?_, rfl, ?_, ?_, ?_, rfl, ?_, ?_⟩
  · simp [persistentSession.MarshalBinary, putUint64BE]
  · rcases s with ⟨g, v, r⟩
    simp only [persistentSession.MarshalBinary, persistentSession.UnmarshalBinary,
      putUint64BE]
    simp only at h1 h2 h3
    simp [beUint64]
    refine ⟨?_, ?_, ?_⟩ <;> omega
  · intro data hlen
    exact ⟨"invalid data length: expected 24 bytes, got " ++ toString data.length,
      by simp [persistentSession.UnmarshalBinary, hlen]⟩
  · simp [persistentSessionApp.MarshalBinary, putUint64BE]
  · rcases t with ⟨a, g, v, r⟩
    simp only [persistentSessionApp.MarshalBinary, persistentSessionApp.UnmarshalBinary,
      putUint64BE]
    simp only at h4 h5 h6 h7
    simp [beUint64]
    refine ⟨?_, ?_, ?_, ?_⟩ <;> omega
  · intro data hlen
    exact ⟨"invalid data length: expected 32 bytes, got " ++ toString data.length,
      by simp [persistentSessionApp.UnmarshalBinary, hlen]⟩

/-- Witness for C9 at concrete identifiers, including a wrong-length
rejection on a single byte. -/
theorem C9_marshal_roundtrip_witness :
    persistentSession.UnmarshalBinary
      (persistentSession.MarshalBinary ⟨1, 2, 3⟩) = .ok ⟨1, 2, 3⟩ ∧
    persistentSessionApp.UnmarshalBinary
      (persistentSessionApp.MarshalBinary ⟨9, 1, 2, 3⟩) = .ok ⟨9, 1, 2, 3⟩ ∧
    (∃ e, persistentSession.UnmarshalBinary [0] = .error e) := by
  have h := C9_marshal_roundtrip ⟨1, 2, 3⟩ ⟨9, 1, 2, 3⟩
    (by decide) (by decide) (by decide) (by decide) (by decide) (by decide) (by decide)
  exact ⟨h.2.2.1, h.2.2.2.2.2.2.1, h.2.2.2.1 [0] (by decide)⟩

/-! ## Session router model (ttsbot/session/manager.go)

Go maps keyed by snowflake identifiers are modelled as association lists:
lookup finds the first matching key, insert overwrites, delete removes the
key, and reading a missing key yields the zero value 0 exactly where the
Go code does (managerImpl.Delete reads voiceToReading[v] unconditionally).
Sessions are represented by opaque numeric tokens. -/

/-- Map lookup. -/
def lookupA : List (Nat × Nat) → Nat → Option Nat
  | [], _ => none
  | p :: rest, k => if p.1 = k then some p.2 else lookupA rest k

/-- Map delete. -/
def eraseA : List (Nat × Nat) → Nat → List (Nat × Nat)
  | [], _ => []
  | p :: rest, k => if p.1 = k then eraseA rest k else p :: eraseA rest k

/-- Map insert (overwrite). -/
def insertA (l : List (Nat × Nat)) (k v : Nat) : List (Nat × Nat) :=
  eraseA l k ++ [(k, v)]

/-- Mirror of managerImpl: sessions (voice channel to session), the
reading-to-voice index and the voice-to-reading index. -/
structure Manager where
  sessions : List (Nat × Nat)
  readingToVoice : List (Nat × Nat)
  voiceToReading : List (Nat × Nat)
deriving DecidableEq, Repr

/-- Mirror of NewSessionManager: all three maps empty. -/
def NewSessionManager : Manager := ⟨[], [], []⟩

/-- Mirror of managerImpl.Add: store the session under the voice channel
and index both directions (observer notification carries no state). -/
def Manager.Add (m : Manager) (guildID voiceChannelID readingChannelID : Nat)
    (session : Nat) : Manager :=
  { sessions := insertA m.sessions voiceChannelID session
    readingToVoice := insertA m.readingToVoice readingChannelID voiceChannelID
    voiceToReading := insertA m.voiceToReading voiceChannelID readingChannelID }

/-- Mirror of managerImpl.Delete: remove the session, read the reading
channel from voiceToReading (zero value when absent) and remove both index
entries. -/
def Manager.Delete (m : Manager) (guildID voiceChannelID : Nat) : Manager :=
  let readingChannelID := (lookupA m.voiceToReading voiceChannelID).getD 0
  { sessions := eraseA m.sessions voiceChannelID
    readingToVoice := eraseA m.readingToVoice readingChannelID
    voiceToReading := eraseA m.voiceToReading voiceChannelID }

/-- A finite sequence of router operations. -/
inductive RouterOp where
  | add (guildID voiceChannelID readingChannelID session : Nat)
  | delete (guildID voiceChannelID : Nat)
deriving DecidableEq, Repr

/-- Run a sequence of Add and Delete operations. -/
def runOps (m : Manager) : List RouterOp → Manager
  | [] => m
  | .add g v r s :: ops => runOps (m.Add g v r s) ops
  | .delete g v :: ops => runOps (m.Delete g v) ops

/-- The two index maps are mutual inverses. -/
def MutualInverse (m : Manager) : Prop :=
  (∀ p ∈ m.readingToVoice, lookupA m.voiceToReading p.2 = some p.1) ∧
  (∀ p ∈ m.voiceToReading, lookupA m.readingToVoice p.2 = some p.1)

/-- The voice-channel keys of the sessions map and of voiceToReading
coincide. -/
def SessionKeysAgree (m : Manager) : Prop :=
  (∀ p ∈ m.sessions, (lookupA m.voiceToReading p.1).isSome = true) ∧
  (∀ p ∈ m.voiceToReading, (lookupA m.sessions p.1).isSome = true)

/-- Well-formed operation sequences: every Add is fresh on both channels
and uses a nonzero reading-channel identifier (snowflake identifiers are
nonzero); Deletes are unrestricted. -/
def validOps (m : Manager) : List RouterOp → Bool
  | [] => true
  | .add g v r s :: ops =>
    (lookupA m.voiceToReading v == none) && (lookupA m.readingToVoice r == none) &&
      (r != 0) && validOps (m.Add g v r s) ops
  | .delete g v :: ops => validOps (m.Delete g v) ops

/-- Strengthened router invariant carried through the induction: mutual
inverse, key agreement, and nonzero reading-channel keys. -/
def RouterInv (m : Manager) : Prop :=
  MutualInverse m ∧ SessionKeysAgree m ∧ ∀ p ∈ m.readingToVoice, p.1 ≠ 0

/-! ### Association list lemmas -/

theorem lookupA_eraseA_self (l : List (Nat × Nat)) (k : Nat) :
    lookupA (eraseA l k) k = none := by
  induction l with
  | nil => rfl
  | cons p rest ih =>
    simp only [eraseA]
    by_cases hp : p.1 = k
    · rw [if_pos hp]; exact ih
    · rw [if_neg hp]
      simp only [lookupA]
      rw [if_neg hp]
      exact ih

theorem lookupA_eraseA_ne (l : List (Nat × Nat)) (k k2 : Nat) (h : k2 ≠ k) :
    lookupA (eraseA l k) k2 = lookupA l k2 := by
  induction l with
  | nil => rfl
  | cons p rest ih =>
    simp only [eraseA]
    by_cases hp : p.1 = k
    · rw [if_pos hp, ih]
      simp only [lookupA]
      rw [if_neg (by rw [hp]; exact Ne.symm h)]
    · rw [if_neg hp]
      simp only [lookupA]
      by_cases hp2 : p.1 = k2
      · rw [if_pos hp2, if_pos hp2]
      · rw [if_neg hp2, if_neg hp2, ih]

theorem lookupA_insertA_self (l : List (Nat × Nat)) (k v : Nat) :
    lookupA (insertA l k v) k = some v := by
  unfold insertA
  induction l with
  | nil => simp [eraseA, lookupA]
  | cons p rest ih =>
    simp only [eraseA]
    by_cases hp : p.1 = k
    · rw [if_pos hp]; exact ih
    · rw [if_neg hp]
      simp only [List.cons_append, lookupA]
      rw [if_neg hp]
      exact ih

theorem lookupA_insertA_ne (l : List (Nat × Nat)) (k v k2 : Nat) (h : k2 ≠ k) :
    lookupA (insertA l k v) k2 = lookupA l k2 := by
  unfold insertA
  induction l with
  | nil => simp [eraseA, lookupA, Ne.symm h]
  | cons p rest ih =>
    simp only [eraseA]
    by_cases hp : p.1 = k
    · rw [if_pos hp, ih]
      simp only [lookupA]
      rw [if_neg (by rw [hp]; exact Ne.symm h)]
    · rw [if_neg hp]
      simp only [List.cons_append, lookupA]
      by_cases hp2 : p.1 = k2
      · rw [if_pos hp2, if_pos hp2]
      · rw [if_neg hp2, if_neg hp2]
        simpa using ih

theorem mem_eraseA (l : List (Nat × Nat)) (k : Nat) (p : Nat × Nat) :
    p ∈ eraseA l k ↔ p ∈ l ∧ p.1 ≠ k := by
  induction l with
  | nil => simp [eraseA]
  | cons q rest ih =>
    simp only [eraseA]
    by_cases hq : q.1 = k
    · rw [if_pos hq, ih]
      constructor
      · exact fun hm => ⟨List.mem_cons_of_mem q hm.1, hm.2⟩
      · rintro ⟨hm, hne⟩
        rcases List.mem_cons.mp hm with rfl | hm2
        · exact absurd hq hne
        · exact ⟨hm2, hne⟩
    · rw [if_neg hq]
      constructor
      · intro hm
        rcases List.mem_cons.mp hm with rfl | hm2
        · exact ⟨List.mem_cons_self _ _, hq⟩
        · rcases ih.mp hm2 with ⟨hm3, hne⟩
          exact ⟨List.mem_cons_of_mem q hm3, hne⟩
      · rintro ⟨hm, hne⟩
        rcases List.mem_cons.mp hm with rfl | hm2
        · exact List.mem_cons_self _ _
        · exact List.mem_cons_of_mem q (ih.mpr ⟨hm2, hne⟩)

theorem mem_insertA (l : List (Nat × Nat)) (k v : Nat) (p : Nat × Nat) :
    p ∈ insertA l k v ↔ (p ∈ l ∧ p.1 ≠ k) ∨ p = (k, v) := by
  unfold insertA
  simp [mem_eraseA]

theorem lookupA_mem (l : List (Nat × Nat)) (k x : Nat)
    (h : lookupA l k = some x) : (k, x) ∈ l := by
  induction l with
  | nil => exact absurd h (by simp [lookupA])
  | cons p rest ih =>
    by_cases hp : p.1 = k
    · rw [lookupA, if_pos hp] at h
      rcases p with ⟨a, b⟩
      simp at hp h
      simp [hp, h]
    · rw [lookupA, if_neg hp] at h
      exact List.mem_cons_of_mem _ (ih h)

theorem isSome_lookupA (l : List (Nat × Nat)) (k : Nat) :
    (lookupA l k).isSome = true ↔ ∃ x, lookupA l k = some x := by
  rcases h : lookupA l k with _ | x
  · simp
  · simp

/-! ### Invariant preservation -/

/-- The empty router satisfies the invariant. -/
theorem routerInv_empty : RouterInv NewSessionManager := by
  refine ⟨⟨?_, ?_⟩, ⟨?_, ?_⟩, ?_⟩ <;> intro p hp <;>
    simp [NewSessionManager] at hp

/-- Add preserves the router invariant when fresh on both channels with a
nonzero reading channel. -/
theorem routerInv_add (m : Manager) (g v r s : Nat) (hinv : RouterInv m)
    (hfv : lookupA m.voiceToReading v = none)
    (hfr : lookupA m.readingToVoice r = none) (hr0 : r ≠ 0) :
    RouterInv (m.Add g v r s) := by
  obtain ⟨⟨hmi1, hmi2⟩, ⟨hka1, hka2⟩, hnz⟩ := hinv
  refine ⟨⟨?_, ?_⟩, ⟨?_, ?_⟩, ?_⟩
  · intro p hp
    rcases (mem_insertA _ _ _ _).mp hp with ⟨hm, hne⟩ | rfl
    · have hold := hmi1 p hm
      have hpv : p.2 ≠ v := fun he => by rw [he, hfv] at hold; exact Option.noConfusion hold
      rw [Manager.Add]
      simpa [lookupA_insertA_ne _ _ _ _ hpv] using hold
    · rw [Manager.Add]
      simpa using lookupA_insertA_self m.voiceToReading v r
  · intro p hp
    rcases (mem_insertA _ _ _ _).mp hp with ⟨hm, hne⟩ | rfl
    · have hold := hmi2 p hm
      have hpr : p.2 ≠ r := fun he => by rw [he, hfr] at hold; exact Option.noConfusion hold
      rw [Manager.Add]
      simpa [lookupA_insertA_ne _ _ _ _ hpr] using hold
    · rw [Manager.Add]
      simpa using lookupA_insertA_self m.readingToVoice r v
  · intro p hp
    rcases (mem_insertA _ _ _ _).mp hp with ⟨hm, hne⟩ | rfl
    · have hold := hka1 p hm
      rw [Manager.Add]
      simpa [lookupA_insertA_ne _ _ _ _ hne] using hold
    · rw [Manager.Add]
      simpa using congrArg Option.isSome (lookupA_insertA_self m.voiceToReading v r)
  · intro p hp
    rcases (mem_insertA _ _ _ _).mp hp with ⟨hm, hne⟩ | rfl
    · have hold := hka2 p hm
      rw [Manager.Add]
      simpa [lookupA_insertA_ne _ _ _ _ hne] using hold
    · rw [Manager.Add]
      simpa using congrArg Option.isSome (lookupA_insertA_self m.sessions v s)
  · intro p hp
    rcases (mem_insertA _ _ _ _).mp hp with ⟨hm, _⟩ | rfl
    · exact hnz p hm
    · exact hr0

/-- Delete preserves the router invariant unconditionally. -/
theorem routerInv_delete (m : Manager) (g v : Nat) (hinv : RouterInv m) :
    RouterInv (m.Delete g v) := by
  obtain ⟨⟨hmi1, hmi2⟩, ⟨hka1, hka2⟩, hnz⟩ := hinv
  rcases hv : lookupA m.voiceToReading v with _ | r
  · -- v is not indexed: the Go code erases reading key 0, which is not a
    -- live reading key.
    refine ⟨⟨?_, ?_⟩, ⟨?_, ?_⟩, ?_⟩
    · intro p hp
      rw [Manager.Delete] at hp ⊢
      simp only [hv] at hp ⊢
      have hm := (mem_eraseA _ _ _).mp hp
      have hold := hmi1 p hm.1
      have hpv : p.2 ≠ v := fun he => by rw [he, hv] at hold; exact Option.noConfusion hold
      simpa [lookupA_eraseA_ne _ _ _ hpv] using hold
    · intro p hp
      rw [Manager.Delete] at hp ⊢
      simp only [hv] at hp ⊢
      have hm := (mem_eraseA _ _ _).mp hp
      have hold := hmi2 p hm.1
      have hp0 : p.2 ≠ 0 := fun he => by
        rw [he] at hold
        exact hnz (0, p.1) (lookupA_mem _ _ _ hold) rfl
      simpa [lookupA_eraseA_ne _ _ _ hp0] using hold
    · intro p hp
      rw [Manager.Delete] at hp ⊢
      simp only [hv] at hp ⊢
      have hm := (mem_eraseA _ _ _).mp hp
      have hold := hka1 p hm.1
      simpa [lookupA_eraseA_ne _ _ _ hm.2] using hold
    · intro p hp
      rw [Manager.Delete] at hp ⊢
      simp only [hv] at hp ⊢
      have hm := (mem_eraseA _ _ _).mp hp
      have hold := hka2 p hm.1
      simpa [lookupA_eraseA_ne _ _ _ hm.2] using hold
    · intro p hp
      rw [Manager.Delete] at hp
      simp only [hv] at hp
      exact hnz p ((mem_eraseA _ _ _).mp hp).1
  · -- v is indexed with reading channel r.
    have hvr : (v, r) ∈ m.voiceToReading := lookupA_mem _ _ _ hv
    have hrv : lookupA m.readingToVoice r = some v := hmi2 (v, r) hvr
    refine ⟨⟨?_, ?_⟩, ⟨?_, ?_⟩, ?_⟩
    · intro p hp
      rw [Manager.Delete] at hp ⊢
      simp only [hv] at hp ⊢
      have hm := (mem_eraseA _ _ _).mp hp
      have hold := hmi1 p hm.1
      have hpv : p.2 ≠ v := by
        intro he
        rw [he, hv] at hold
        exact hm.2 (Option.some.inj hold).symm
      simpa [lookupA_eraseA_ne _ _ _ hpv] using hold
    · intro p hp
      rw [Manager.Delete] at hp ⊢
      simp only [hv] at hp ⊢
      have hm := (mem_eraseA _ _ _).mp hp
      have hold := hmi2 p hm.1
      have hpr : p.2 ≠ r := by
        intro he
        rw [he, hrv] at hold
        exact hm.2 (Option.some.inj hold).symm
      simpa [lookupA_eraseA_ne _ _ _ hpr] using hold
    · intro p hp
      rw [Manager.Delete] at hp ⊢
      simp only [hv] at hp ⊢
      have hm := (mem_eraseA _ _ _).mp hp
      have hold := hka1 p hm.1
      simpa [lookupA_eraseA_ne _ _ _ hm.2] using hold
    · intro p hp
      rw [Manager.Delete] at hp ⊢
      simp only [hv] at hp ⊢
      have hm := (mem_eraseA _ _ _).mp hp
      have hold := hka2 p hm.1
      simpa [lookupA_eraseA_ne _ _ _ hm.2] using hold
    · intro p hp
      rw [Manager.Delete] at hp
      simp only [hv] at hp
      exact hnz p ((mem_eraseA _ _ _).mp hp).1

/-- The invariant carries over any well-formed operation sequence. -/
theorem routerInv_runOps (ops : List RouterOp) :
    ∀ m : Manager, RouterInv m → validOps m ops = true →
      RouterInv (runOps m ops) := by
  induction ops with
  | nil => intro m hinv _; exact hinv
  | cons op rest ih =>
    intro m hinv hvalid
    cases op with
    | add g v r s =>
      rw [validOps] at hvalid
      simp only [Bool.and_eq_true, beq_iff_eq, bne_iff_ne] at hvalid
      obtain ⟨⟨⟨hfv, hfr⟩, hr0⟩, hrest⟩ := hvalid
      rw [runOps]
      exact ih (m.Add g v r s) (routerInv_add m g v r s hinv hfv hfr hr0) hrest
    | delete g v =>
      rw [validOps] at hvalid
      rw [runOps]
      exact ih (m.Delete g v) (routerInv_delete m g v hinv) hvalid

/-! ### Router theorems -/

/-- Claim C8 counterexample: the sequence Add(1,1,10,100) then
Add(1,1,20,100) — a second Add reusing voice channel 1 with a different
reading channel — leaves readingToVoice mapping 10 to 1 while
voiceToReading maps 1 to 20, so the two index maps are not mutual
inverses: the invariant does not hold after every finite Add/Delete
sequence from the empty state. -/
theorem C8_counterexample :
    ¬ (MutualInverse (runOps NewSessionManager
          [.add 1 1 10 100, .add 1 1 20 100]) ∧
       SessionKeysAgree (runOps NewSessionManager
          [.add 1 1 10 100, .add 1 1 20 100])) := by
  intro h
  have h10 := h.1.1 (10, 1) (by decide)
  exact absurd h10 (by decide)

/-- Claim C8 (amended): after every finite sequence of Add and Delete
operations from the empty state in which each Add uses a voice channel and
a reading channel that are not currently indexed and a nonzero
reading-channel identifier, the two index maps are mutual inverses and the
voice-channel keys of the sessions map coincide with the keys of
voiceToReading. -/
theorem C8_router_invariant (ops : List RouterOp)
    (h : validOps NewSessionManager ops = true) :
    MutualInverse (runOps NewSessionManager ops) ∧
    SessionKeysAgree (runOps NewSessionManager ops) := by
  have hinv := routerInv_runOps ops NewSessionManager routerInv_empty h
  exact ⟨hinv.1, hinv.2.1⟩

/-- Witness for the amended C8: a fresh Add, a second fresh Add, a Delete
of a live session and a Delete of an absent one keep the invariant. -/
theorem C8_router_invariant_witness :
    MutualInverse (runOps NewSessionManager
      [.add 1 1 10 100, .add 1 2 20 200, .delete 1 1, .delete 1 5]) ∧
    SessionKeysAgree (runOps NewSessionManager
      [.add 1 1 10 100, .add 1 2 20 200, .delete 1 1, .delete 1 5]) :=
  C8_router_invariant [.add 1 1 10 100, .add 1 2 20 200, .delete 1 1, .delete 1 5]
    (by decide)

end Ttsbot
